import Mathlib

/-!
Shallow embedding of `main.go` of sojoudian/goTestAPI: a minimal CRUD HTTP
service over a mutex-guarded in-memory map of books.  The mutex serialises the
handlers, so each handler is modelled as a pure function from the registry
state (the map plus the `nextID` counter) to a response paired with the new
registry state.  Go's `map[int]Book` is modelled as an association list with
the usual lookup/assign/delete operations; `strconv.Atoi` and the JSON
encoding of a nil slice are modelled after Go's documented semantics.
-/

set_option autoImplicit false

/-- The `Book` struct of `main.go`: id, title, author. -/
structure Book where
  id : Int
  title : String
  author : String
deriving DecidableEq, Repr

/-- The in-memory registry: the `books` map (as an association list from id to
`Book`) together with the `nextID` counter.  In `main.go` these are the
globals `books` and `nextID`, initialised to the empty map and `1`. -/
structure Registry where
  books : List (Int × Book)
  nextID : Int
deriving DecidableEq, Repr

/-- The initial state: empty map, `nextID = 1`. -/
def Registry.init : Registry := ⟨[], 1⟩

/-- Response bodies the handlers can produce: the empty body (204), a plain
text error body (`http.Error`), one JSON-encoded book, and the encoding of a
Go `[]Book` slice, where a nil slice encodes to JSON `null` and a non-nil
slice to a JSON array (per `encoding/json`). -/
inductive Body where
  | empty : Body
  | errText : String → Body
  | jsonBook : Book → Body
  | jsonNull : Body
  | jsonArr : List Book → Body
deriving DecidableEq, Repr

/-- An HTTP response: status code and body. -/
structure Response where
  status : Nat
  body : Body
deriving DecidableEq, Repr

/-- Go `strconv.Atoi`: an optional leading sign followed by at least one
decimal digit, rejecting anything else and values outside the 64-bit `int`
range (where `Atoi` reports `ErrRange`, which the handlers also treat as a
parse failure). -/
def Atoi (s : String) : Option Int :=
  match s.data with
  | [] => none
  | c :: cs =>
    let p : Bool × List Char :=
      if c = '-' then (true, cs)
      else if c = '+' then (false, cs)
      else (false, c :: cs)
    if p.2.isEmpty || !(p.2.all Char.isDigit) then none
    else
      let n : Nat := p.2.foldl (fun a d => a * 10 + (d.toNat - 48)) 0
      let v : Int := if p.1 then -(n : Int) else (n : Int)
      if -(2 ^ 63) ≤ v ∧ v < 2 ^ 63 then some v else none

/-- Lookup in the `books` map: `book, found := books[id]`. -/
def mapLookup (m : List (Int × Book)) (k : Int) : Option Book :=
  match m with
  | [] => none
  | (k', v') :: rest => if k' = k then some v' else mapLookup rest k

/-- Map assignment `books[k] = v`: replaces the binding for `k` when present,
otherwise adds one. -/
def mapInsert (m : List (Int × Book)) (k : Int) (v : Book) : List (Int × Book) :=
  match m with
  | [] => [(k, v)]
  | (k', v') :: rest => if k' = k then (k, v) :: rest else (k', v') :: mapInsert rest k v

/-- Go's builtin `delete(books, k)`: removes the binding for `k`. -/
def mapDelete (m : List (Int × Book)) (k : Int) : List (Int × Book) :=
  match m with
  | [] => []
  | (k', v') :: rest => if k' = k then mapDelete rest k else (k', v') :: mapDelete rest k

/-- Go's `int` is 64 bits wide with two's-complement wrap-around on overflow:
`wrapInt` reduces an integer into the interval `[-2^63, 2^63)`.  `nextID++`
in `CreateBook` performs this wrapping increment. -/
def wrapInt (n : Int) : Int := (n + 2 ^ 63) % 2 ^ 64 - 2 ^ 63

/-- `CreateBook` (POST /books).  The request body is the result of JSON
decoding into `Book`: `none` when undecodable (→ 400 before any registry
access), otherwise the decoded book, whose id field is then overwritten with
`nextID`; the record is stored under its id and `nextID` is incremented by
`nextID++`, which wraps around at the 64-bit boundary. -/
def CreateBook (body : Option Book) (reg : Registry) : Response × Registry :=
  match body with
  | none => (⟨400, Body.errText "Invalid input"⟩, reg)
  | some book =>
    let b : Book := { book with id := reg.nextID }
    (⟨201, Body.jsonBook b⟩, ⟨mapInsert reg.books b.id b, wrapInt (reg.nextID + 1)⟩)

/-- The `append(bookList, book)` step of `GetBooks` on a Go slice modelled as
`Option (List Book)` (`none` is the nil slice): appending to a nil slice
yields a non-nil slice. -/
def goAppend (s : Option (List Book)) (b : Book) : Option (List Book) :=
  some (s.getD [] ++ [b])

/-- `sendJSON` applied to the `bookList` slice: `encoding/json` writes `null`
for a nil slice and a JSON array for a non-nil one. -/
def encodeSlice : Option (List Book) → Body
  | none => Body.jsonNull
  | some bs => Body.jsonArr bs

/-- `GetBooks` (GET /books): folds `append` over the map entries starting
from the nil slice `var bookList []Book`, then sends it with status 200. -/
def GetBooks (reg : Registry) : Response × Registry :=
  let bookList := reg.books.foldl (fun acc p => goAppend acc p.2) none
  (⟨200, encodeSlice bookList⟩, reg)

/-- `GetBook` (GET /books/{id}): parse the id segment with `Atoi` (400 on
failure), then look it up (404 when absent, else 200 with the book). -/
def GetBook (idStr : String) (reg : Registry) : Response × Registry :=
  match Atoi idStr with
  | none => (⟨400, Body.errText "Invalid book ID"⟩, reg)
  | some id =>
    match mapLookup reg.books id with
    | none => (⟨404, Body.errText "Book not found"⟩, reg)
    | some book => (⟨200, Body.jsonBook book⟩, reg)

/-- `UpdateBook` (PUT /books/{id}): parse the id (400 on failure), decode the
body (400 on failure), require the id to be present (404 otherwise), then
store the decoded book with its id forced to the path id. -/
def UpdateBook (idStr : String) (body : Option Book) (reg : Registry) :
    Response × Registry :=
  match Atoi idStr with
  | none => (⟨400, Body.errText "Invalid book ID"⟩, reg)
  | some id =>
    match body with
    | none => (⟨400, Body.errText "Invalid input"⟩, reg)
    | some updatedBook =>
      match mapLookup reg.books id with
      | none => (⟨404, Body.errText "Book not found"⟩, reg)
      | some _ =>
        let ub : Book := { updatedBook with id := id }
        (⟨200, Body.jsonBook ub⟩, ⟨mapInsert reg.books id ub, reg.nextID⟩)

/-- `DeleteBook` (DELETE /books/{id}): parse the id (400 on failure), require
it to be present (404 otherwise), then remove it and answer 204 with an empty
body. -/
def DeleteBook (idStr : String) (reg : Registry) : Response × Registry :=
  match Atoi idStr with
  | none => (⟨400, Body.errText "Invalid book ID"⟩, reg)
  | some id =>
    match mapLookup reg.books id with
    | none => (⟨404, Body.errText "Book not found"⟩, reg)
    | some _ => (⟨204, Body.empty⟩, ⟨mapDelete reg.books id, reg.nextID⟩)

/-- One registry operation, as dispatched by `main` from method and path.
Bodies carry the JSON-decoding result, id segments the raw path segment. -/
inductive Op where
  | create : Option Book → Op
  | list : Op
  | get : String → Op
  | update : String → Option Book → Op
  | delete : String → Op
deriving DecidableEq, Repr

/-- Run one operation against the registry. -/
def applyOp (reg : Registry) : Op → Response × Registry
  | Op.create body => CreateBook body reg
  | Op.list => GetBooks reg
  | Op.get s => GetBook s reg
  | Op.update s body => UpdateBook s body reg
  | Op.delete s => DeleteBook s reg

/-- Run a sequence of operations, returning the final registry state. -/
def runOps (reg : Registry) : List Op → Registry
  | [] => reg
  | op :: ops => runOps (applyOp reg op).2 ops

/-- The id returned by a successful Create: a 201 response carrying a JSON
book contributes that book's id, any other response contributes nothing. -/
def returnedId (r : Response) : List Int :=
  match r.status, r.body with
  | 201, Body.jsonBook b => [b.id]
  | _, _ => []

/-- The ids handed out by Create along a sequence of operations. -/
def createdIds (reg : Registry) : List Op → List Int
  | [] => []
  | op :: ops => returnedId (applyOp reg op).1 ++ createdIds (applyOp reg op).2 ops

/-! ### Lemmas about wrapping and the map operations -/

theorem wrapInt_eq (n : Int) (h1 : -(2 ^ 63) ≤ n) (h2 : n < 2 ^ 63) :
    wrapInt n = n := by
  unfold wrapInt
  omega

theorem mapLookup_mapInsert (m : List (Int × Book)) (k : Int) (v : Book) :
    mapLookup (mapInsert m k v) k = some v := by
  induction m with
  | nil => simp [mapInsert, mapLookup]
  | cons p rest ih =>
    obtain ⟨k', v'⟩ := p
    by_cases h : k' = k <;> simp [mapInsert, mapLookup, h, ih]

theorem mapLookup_mapDelete (m : List (Int × Book)) (k : Int) :
    mapLookup (mapDelete m k) k = none := by
  induction m with
  | nil => simp [mapDelete, mapLookup]
  | cons p rest ih =>
    obtain ⟨k', v'⟩ := p
    by_cases h : k' = k <;> simp [mapDelete, mapLookup, h, ih]

theorem mem_mapInsert {m : List (Int × Book)} {k : Int} {v : Book}
    {p : Int × Book} (hp : p ∈ mapInsert m k v) : p ∈ m ∨ p = (k, v) := by
  induction m with
  | nil => simpa [mapInsert] using hp
  | cons q rest ih =>
    obtain ⟨k', v'⟩ := q
    by_cases h : k' = k
    · subst h
      simp [mapInsert] at hp
      rcases hp with h1 | h1
      · exact Or.inr h1
      · exact Or.inl (List.mem_cons_of_mem _ h1)
    · simp only [mapInsert, if_neg h, List.mem_cons] at hp
      rcases hp with h1 | h1
      · exact Or.inl (h1 ▸ List.mem_cons_self _ _)
      · rcases ih h1 with h2 | h2
        · exact Or.inl (List.mem_cons_of_mem _ h2)
        · exact Or.inr h2

theorem mem_mapDelete {m : List (Int × Book)} {k : Int}
    {p : Int × Book} (hp : p ∈ mapDelete m k) : p ∈ m := by
  induction m with
  | nil => simp [mapDelete] at hp
  | cons q rest ih =>
    obtain ⟨k', v'⟩ := q
    by_cases h : k' = k
    · subst h
      simp only [mapDelete, if_true, eq_self_iff_true] at hp
      exact List.mem_cons_of_mem _ (ih (by simpa [mapDelete] using hp))
    · simp only [mapDelete, if_neg h, List.mem_cons] at hp
      rcases hp with h1 | h1
      · exact h1 ▸ List.mem_cons_self _ _
      · exact List.mem_cons_of_mem _ (ih h1)

/-! ### Per-handler characterization lemmas -/

theorem GetBook_snd (idStr : String) (reg : Registry) : (GetBook idStr reg).2 = reg := by
  rcases hA : Atoi idStr with _ | id
  · simp [GetBook, hA]
  · rcases hL : mapLookup reg.books id with _ | b <;> simp [GetBook, hA, hL]

theorem GetBooks_snd (reg : Registry) : (GetBooks reg).2 = reg := rfl

theorem returnedId_GetBook (idStr : String) (reg : Registry) :
    returnedId (GetBook idStr reg).1 = [] := by
  rcases hA : Atoi idStr with _ | id
  · simp [GetBook, hA, returnedId]
  · rcases hL : mapLookup reg.books id with _ | b <;> simp [GetBook, hA, hL, returnedId]

theorem UpdateBook_snd (idStr : String) (body : Option Book) (reg : Registry) :
    (UpdateBook idStr body reg).2 = reg ∨
      ∃ id ub, Atoi idStr = some id ∧ ub.id = id ∧
        (UpdateBook idStr body reg).2 = ⟨mapInsert reg.books id ub, reg.nextID⟩ := by
  rcases hA : Atoi idStr with _ | id
  · left; simp [UpdateBook, hA]
  · rcases body with _ | ub
    · left; simp [UpdateBook, hA]
    · rcases hL : mapLookup reg.books id with _ | b
      · left; simp [UpdateBook, hA, hL]
      · right
        exact ⟨id, { ub with id := id }, rfl, rfl, by simp [UpdateBook, hA, hL]⟩

theorem returnedId_UpdateBook (idStr : String) (body : Option Book) (reg : Registry) :
    returnedId (UpdateBook idStr body reg).1 = [] := by
  rcases hA : Atoi idStr with _ | id
  · simp [UpdateBook, hA, returnedId]
  · rcases body with _ | ub
    · simp [UpdateBook, hA, returnedId]
    · rcases hL : mapLookup reg.books id with _ | b <;>
        simp [UpdateBook, hA, hL, returnedId]

theorem UpdateBook_nextID (idStr : String) (body : Option Book) (reg : Registry) :
    ((UpdateBook idStr body reg).2).nextID = reg.nextID := by
  rcases UpdateBook_snd idStr body reg with h | ⟨id, ub, _, _, h⟩ <;> rw [h]

theorem DeleteBook_snd (idStr : String) (reg : Registry) :
    (DeleteBook idStr reg).2 = reg ∨
      ∃ id, Atoi idStr = some id ∧
        (DeleteBook idStr reg).2 = ⟨mapDelete reg.books id, reg.nextID⟩ := by
  rcases hA : Atoi idStr with _ | id
  · left; simp [DeleteBook, hA]
  · rcases hL : mapLookup reg.books id with _ | b
    · left; simp [DeleteBook, hA, hL]
    · right; exact ⟨id, rfl, by simp [DeleteBook, hA, hL]⟩

theorem returnedId_DeleteBook (idStr : String) (reg : Registry) :
    returnedId (DeleteBook idStr reg).1 = [] := by
  rcases hA : Atoi idStr with _ | id
  · simp [DeleteBook, hA, returnedId]
  · rcases hL : mapLookup reg.books id with _ | b <;>
      simp [DeleteBook, hA, hL, returnedId]

theorem DeleteBook_nextID (idStr : String) (reg : Registry) :
    ((DeleteBook idStr reg).2).nextID = reg.nextID := by
  rcases DeleteBook_snd idStr reg with h | ⟨id, _, h⟩ <;> rw [h]

/-- Each operation either returns no created id and leaves `nextID` alone, or
is a successful Create, returning exactly the old `nextID` and advancing the
counter by the wrapping increment. -/
theorem applyOp_returnedId (reg : Registry) (op : Op) :
    (returnedId (applyOp reg op).1 = [] ∧ ((applyOp reg op).2).nextID = reg.nextID)
    ∨ (returnedId (applyOp reg op).1 = [reg.nextID] ∧
        ((applyOp reg op).2).nextID = wrapInt (reg.nextID + 1)) := by
  cases op with
  | create body =>
    cases body with
    | none => exact Or.inl ⟨rfl, rfl⟩
    | some b => exact Or.inr ⟨rfl, rfl⟩
  | list => exact Or.inl ⟨rfl, rfl⟩
  | get s =>
    exact Or.inl ⟨returnedId_GetBook s reg,
      by rw [show (applyOp reg (Op.get s)).2 = reg from GetBook_snd s reg]⟩
  | update s body =>
    exact Or.inl ⟨returnedId_UpdateBook s body reg, UpdateBook_nextID s body reg⟩
  | delete s => exact Or.inl ⟨returnedId_DeleteBook s reg, DeleteBook_nextID s reg⟩

/-! ### Trace-level lemmas: the counter and the created ids -/

theorem runOps_nextID_mono (ops : List Op) :
    ∀ reg : Registry, -(2 ^ 63) ≤ reg.nextID →
      reg.nextID + (ops.length : Int) < 2 ^ 63 →
      reg.nextID ≤ (runOps reg ops).nextID := by
  induction ops with
  | nil => intro reg _ _; exact le_refl _
  | cons op ops ih =>
    intro reg h1 h2
    simp only [List.length_cons] at h2
    simp only [runOps]
    rcases applyOp_returnedId reg op with ⟨_, hn⟩ | ⟨_, hn⟩
    · have := ih (applyOp reg op).2 (by omega) (by omega)
      omega
    · have hw : wrapInt (reg.nextID + 1) = reg.nextID + 1 :=
        wrapInt_eq _ (by omega) (by omega)
      rw [hw] at hn
      have := ih (applyOp reg op).2 (by omega) (by omega)
      omega

theorem createdIds_bounds (ops : List Op) :
    ∀ (reg : Registry) (i : Int), -(2 ^ 63) ≤ reg.nextID →
      reg.nextID + (ops.length : Int) < 2 ^ 63 →
      i ∈ createdIds reg ops →
      reg.nextID ≤ i ∧ i < (runOps reg ops).nextID := by
  induction ops with
  | nil => intro reg i _ _ hi; simp [createdIds] at hi
  | cons op ops ih =>
    intro reg i h1 h2 hi
    simp only [List.length_cons] at h2
    simp only [createdIds, List.mem_append] at hi
    simp only [runOps]
    rcases applyOp_returnedId reg op with ⟨hr, hn⟩ | ⟨hr, hn⟩
    · rcases hi with hi | hi
      · rw [hr] at hi; simp at hi
      · have := ih (applyOp reg op).2 i (by omega) (by omega) hi
        omega
    · have hw : wrapInt (reg.nextID + 1) = reg.nextID + 1 :=
        wrapInt_eq _ (by omega) (by omega)
      rw [hw] at hn
      have hmono := runOps_nextID_mono ops (applyOp reg op).2 (by omega) (by omega)
      rcases hi with hi | hi
      · rw [hr] at hi
        simp only [List.mem_singleton] at hi
        subst hi
        omega
      · have := ih (applyOp reg op).2 i (by omega) (by omega) hi
        omega

theorem createdIds_nodup (ops : List Op) :
    ∀ reg : Registry, -(2 ^ 63) ≤ reg.nextID →
      reg.nextID + (ops.length : Int) < 2 ^ 63 →
      (createdIds reg ops).Nodup := by
  induction ops with
  | nil => intro reg _ _; simp [createdIds]
  | cons op ops ih =>
    intro reg h1 h2
    simp only [List.length_cons] at h2
    simp only [createdIds]
    rcases applyOp_returnedId reg op with ⟨hr, hn⟩ | ⟨hr, hn⟩
    · rw [hr]
      simpa using ih (applyOp reg op).2 (by omega) (by omega)
    · have hw : wrapInt (reg.nextID + 1) = reg.nextID + 1 :=
        wrapInt_eq _ (by omega) (by omega)
      rw [hw] at hn
      rw [hr, List.singleton_append]
      refine List.nodup_cons.mpr ⟨?_, ih (applyOp reg op).2 (by omega) (by omega)⟩
      intro hmem
      have := (createdIds_bounds ops (applyOp reg op).2 reg.nextID
        (by omega) (by omega) hmem).1
      omega

theorem range_map_shift (s : Int) (n : Nat) :
    List.map (fun k : Nat => s + (k : Int)) (List.range (n + 1)) =
      s :: List.map (fun k : Nat => s + 1 + (k : Int)) (List.range n) := by
  rw [List.range_succ_eq_map, List.map_cons, List.map_map]
  simp only [Nat.cast_zero, add_zero]
  congr 1
  congr 1
  funext k
  simp [Function.comp]
  ring

theorem createdIds_creates (bs : List Book) :
    ∀ reg : Registry, -(2 ^ 63) ≤ reg.nextID →
      reg.nextID + (bs.length : Int) ≤ 2 ^ 63 →
      createdIds reg (bs.map (fun b => Op.create (some b))) =
        (List.range bs.length).map (fun n : Nat => reg.nextID + (n : Int)) := by
  induction bs with
  | nil => intro reg _ _; simp [createdIds]
  | cons b bs ih =>
    intro reg h1 h2
    simp only [List.length_cons] at h2
    cases bs with
    | nil =>
      simp only [List.map_cons, List.map_nil, createdIds]
      rw [show returnedId (applyOp reg (Op.create (some b))).1 = [reg.nextID] from rfl]
      simp [createdIds, List.range_succ]
    | cons b2 bs2 =>
      have hlen : (1 : Int) ≤ ((b2 :: bs2).length : Int) := by
        simp only [List.length_cons]
        omega
      have hw : wrapInt (reg.nextID + 1) = reg.nextID + 1 :=
        wrapInt_eq _ (by omega) (by omega)
      rw [List.map_cons]
      rw [show createdIds reg
            (Op.create (some b) :: (b2 :: bs2).map (fun b => Op.create (some b))) =
          [reg.nextID] ++
            createdIds
              (⟨mapInsert reg.books reg.nextID ⟨reg.nextID, b.title, b.author⟩,
                wrapInt (reg.nextID + 1)⟩ : Registry)
              ((b2 :: bs2).map (fun b => Op.create (some b))) from rfl]
      rw [hw]
      rw [ih ⟨mapInsert reg.books reg.nextID ⟨reg.nextID, b.title, b.author⟩,
            reg.nextID + 1⟩
          (by show -(2 ^ 63) ≤ reg.nextID + 1; omega)
          (by show reg.nextID + 1 + (((b2 :: bs2).length : Nat) : Int) ≤ 2 ^ 63; omega)]
      simp only [List.length_cons, List.singleton_append]
      rw [range_map_shift reg.nextID (bs2.length + 1)]

/-! ### The id-equals-key invariant -/

/-- Every book in the map is stored under its own id. -/
def WF (reg : Registry) : Prop := ∀ p ∈ reg.books, p.2.id = p.1

theorem WF_init : WF Registry.init := by intro p hp; simp [Registry.init] at hp

theorem WF_applyOp {reg : Registry} (h : WF reg) (op : Op) : WF (applyOp reg op).2 := by
  cases op with
  | create body =>
    cases body with
    | none => exact h
    | some b =>
      intro p hp
      rcases mem_mapInsert hp with h1 | h1
      · exact h p h1
      · rw [h1]
  | list => exact h
  | get s =>
    intro p hp
    rw [show (applyOp reg (Op.get s)).2 = reg from GetBook_snd s reg] at hp
    exact h p hp
  | update s body =>
    intro p hp
    rcases UpdateBook_snd s body reg with h2 | ⟨id, ub, _, hub, h2⟩
    · rw [show (applyOp reg (Op.update s body)).2 = reg from h2] at hp
      exact h p hp
    · rw [show (applyOp reg (Op.update s body)).2 =
            ⟨mapInsert reg.books id ub, reg.nextID⟩ from h2] at hp
      rcases mem_mapInsert hp with h1 | h1
      · exact h p h1
      · rw [h1]; exact hub
  | delete s =>
    intro p hp
    rcases DeleteBook_snd s reg with h2 | ⟨id, _, h2⟩
    · rw [show (applyOp reg (Op.delete s)).2 = reg from h2] at hp
      exact h p hp
    · rw [show (applyOp reg (Op.delete s)).2 =
            ⟨mapDelete reg.books id, reg.nextID⟩ from h2] at hp
      exact h p (mem_mapDelete hp)

theorem WF_runOps (ops : List Op) :
    ∀ reg : Registry, WF reg → WF (runOps reg ops) := by
  induction ops with
  | nil => intro reg h; exact h
  | cons op ops ih =>
    intro reg h
    exact ih (applyOp reg op).2 (WF_applyOp h op)

example : Atoi "12" = some 12 := by decide
example : Atoi "-1" = some (-1) := by decide
example : Atoi "abc" = none := by decide
example : Atoi "" = none := by decide
example : Atoi "+7" = some 7 := by decide
example : Atoi "1x" = none := by decide
example : (GetBooks Registry.init).1 = ⟨200, Body.jsonNull⟩ := by decide
example :
    (CreateBook (some ⟨99, "T", "A"⟩) Registry.init).2 =
      ⟨[(1, ⟨1, "T", "A"⟩)], 2⟩ := by decide

/-! ### The claims -/

/-- C1 counterexample: Go's `nextID` is a 64-bit `int`, so `nextID++` does
not always increment by one: at the registry whose counter holds
`2^63 - 1`, a Create wraps the counter to `-2^63` instead of adding one,
refuting the claim's "increments next-id by one" over all states. -/
theorem create_increment_wraps :
    ((CreateBook (some ⟨0, "T", "A"⟩) (⟨[], 2 ^ 63 - 1⟩ : Registry)).2).nextID =
        -(2 ^ 63)
    ∧ ((CreateBook (some ⟨0, "T", "A"⟩) (⟨[], 2 ^ 63 - 1⟩ : Registry)).2).nextID ≠
        (⟨[], 2 ^ 63 - 1⟩ : Registry).nextID + 1 :=
  ⟨by decide, by decide⟩

/-- C1 (amended): every Create assigns the current `nextID` to the stored
record (overwriting any id in the body), advances the counter by the wrapping
64-bit increment `nextID++`, and answers 201 with the stored record; a
sequence of at most `2^63 - 1` successful Creates from the initial registry —
i.e. any sequence that does not overflow the counter — returns exactly the
ids 1, 2, 3, … in order. -/
theorem create_ids_sequential :
    (∀ (reg : Registry) (b : Book),
        CreateBook (some b) reg =
          (⟨201, Body.jsonBook ⟨reg.nextID, b.title, b.author⟩⟩,
           ⟨mapInsert reg.books reg.nextID ⟨reg.nextID, b.title, b.author⟩,
            wrapInt (reg.nextID + 1)⟩))
    ∧ (∀ bs : List Book, (bs.length : Int) ≤ 2 ^ 63 - 1 →
        createdIds Registry.init (bs.map (fun b => Op.create (some b))) =
          (List.range bs.length).map (fun n : Nat => 1 + (n : Int))) :=
  ⟨fun _ _ => rfl,
   fun bs h =>
     createdIds_creates bs Registry.init (by decide)
       (by show (1 : Int) + (bs.length : Int) ≤ 2 ^ 63; omega)⟩

theorem create_ids_sequential_witness :
    (([⟨9, "T", "A"⟩, ⟨9, "U", "B"⟩] : List Book).length : Int) ≤ 2 ^ 63 - 1
    ∧ createdIds Registry.init
        (([⟨9, "T", "A"⟩, ⟨9, "U", "B"⟩] : List Book).map
          (fun b => Op.create (some b))) =
        (List.range ([⟨9, "T", "A"⟩, ⟨9, "U", "B"⟩] : List Book).length).map
          (fun n : Nat => 1 + (n : Int)) :=
  ⟨by decide, create_ids_sequential.2 [⟨9, "T", "A"⟩, ⟨9, "U", "B"⟩] (by decide)⟩

/-- C2 (code bug): on the empty registry, `GetBooks` answers 200 but — since
`var bookList []Book` is the nil slice and `encoding/json` encodes a nil
slice as `null` — the body is JSON `null`, not the empty array `[]` the claim
requires. -/
theorem getBooks_empty_encodes_null :
    (GetBooks Registry.init).1 = ⟨200, Body.jsonNull⟩ ∧
      Body.jsonNull ≠ Body.jsonArr [] :=
  ⟨rfl, by decide⟩

/-- C3 counterexample: the segment "-1" is not a non-negative integer, yet
`strconv.Atoi` parses it, so `GetBook` consults the registry and answers 404,
not the 400 the claim requires. -/
theorem negative_segment_not_malformed :
    Atoi "-1" = some (-1) ∧ (GetBook "-1" Registry.init).1.status = 404 :=
  ⟨by decide, by decide⟩

/-- C3 (amended): for every Get, Update or Delete request whose id segment is
rejected by `strconv.Atoi` (which accepts an optional sign followed by digits,
so negative segments parse and instead reach the NotFound path), the
operation answers 400 and returns the registry unchanged. -/
theorem unparsable_id_malformed :
    ∀ (reg : Registry) (idStr : String) (body : Option Book), Atoi idStr = none →
      GetBook idStr reg = (⟨400, Body.errText "Invalid book ID"⟩, reg)
      ∧ UpdateBook idStr body reg = (⟨400, Body.errText "Invalid book ID"⟩, reg)
      ∧ DeleteBook idStr reg = (⟨400, Body.errText "Invalid book ID"⟩, reg) := by
  intro reg idStr body hA
  refine ⟨?_, ?_, ?_⟩ <;> simp [GetBook, UpdateBook, DeleteBook, hA]

theorem unparsable_id_malformed_witness :
    Atoi "abc" = none ∧
      (GetBook "abc" Registry.init = (⟨400, Body.errText "Invalid book ID"⟩, Registry.init)
      ∧ UpdateBook "abc" none Registry.init =
          (⟨400, Body.errText "Invalid book ID"⟩, Registry.init)
      ∧ DeleteBook "abc" Registry.init =
          (⟨400, Body.errText "Invalid book ID"⟩, Registry.init)) :=
  ⟨by decide, unparsable_id_malformed Registry.init "abc" none (by decide)⟩

/-- C4: an undecodable body makes Create answer 400 before touching the
registry, and makes Update answer 400 with the registry unchanged, whatever
the id segment. -/
theorem undecodable_body_malformed :
    (∀ reg : Registry,
        (CreateBook none reg).1 = ⟨400, Body.errText "Invalid input"⟩ ∧
          (CreateBook none reg).2 = reg)
    ∧ (∀ (reg : Registry) (idStr : String),
        (UpdateBook idStr none reg).1.status = 400 ∧
          (UpdateBook idStr none reg).2 = reg) := by
  constructor
  · intro reg; exact ⟨rfl, rfl⟩
  · intro reg idStr
    rcases hA : Atoi idStr with _ | id <;> simp [UpdateBook, hA]

/-- C5: on a present id, Update replaces the record wholesale with the
decoded body, forcing its id to the path id, answers 200 with that record,
and a subsequent Get returns exactly it; on an absent id, Update answers 404
and leaves the registry unchanged. -/
theorem update_replaces_record :
    ∀ (reg : Registry) (idStr : String) (id : Int) (rep : Book),
      Atoi idStr = some id →
      (∀ b0 : Book, mapLookup reg.books id = some b0 →
          UpdateBook idStr (some rep) reg =
            (⟨200, Body.jsonBook ⟨id, rep.title, rep.author⟩⟩,
             ⟨mapInsert reg.books id ⟨id, rep.title, rep.author⟩, reg.nextID⟩)
          ∧ (GetBook idStr (UpdateBook idStr (some rep) reg).2).1 =
              ⟨200, Body.jsonBook ⟨id, rep.title, rep.author⟩⟩)
      ∧ (mapLookup reg.books id = none →
          UpdateBook idStr (some rep) reg =
            (⟨404, Body.errText "Book not found"⟩, reg)) := by
  intro reg idStr id rep hA
  constructor
  · intro b0 hL
    have hU : UpdateBook idStr (some rep) reg =
        (⟨200, Body.jsonBook ⟨id, rep.title, rep.author⟩⟩,
         ⟨mapInsert reg.books id ⟨id, rep.title, rep.author⟩, reg.nextID⟩) := by
      simp [UpdateBook, hA, hL]
    refine ⟨hU, ?_⟩
    rw [hU]
    simp [GetBook, hA, mapLookup_mapInsert]
  · intro hL
    simp [UpdateBook, hA, hL]

theorem update_replaces_record_witness :
    (GetBook "1" (UpdateBook "1" (some ⟨99, "T2", "A2"⟩)
        (⟨[(1, ⟨1, "T", "A"⟩)], 2⟩ : Registry)).2).1 =
      ⟨200, Body.jsonBook ⟨1, "T2", "A2"⟩⟩ :=
  ((update_replaces_record ⟨[(1, ⟨1, "T", "A"⟩)], 2⟩ "1" 1 ⟨99, "T2", "A2"⟩
      (by decide)).1 ⟨1, "T", "A"⟩ (by decide)).2

/-- C6: Create with title T and author A answers 201 with the record
{nextID, T, A}, and Get on the returned id answers 200 with exactly that
record. -/
theorem create_then_get :
    ∀ (reg : Registry) (b : Book) (idStr : String),
      Atoi idStr = some reg.nextID →
      (CreateBook (some b) reg).1 =
          ⟨201, Body.jsonBook ⟨reg.nextID, b.title, b.author⟩⟩
      ∧ (GetBook idStr (CreateBook (some b) reg).2).1 =
          ⟨200, Body.jsonBook ⟨reg.nextID, b.title, b.author⟩⟩ := by
  intro reg b idStr hA
  refine ⟨rfl, ?_⟩
  show (GetBook idStr
      ⟨mapInsert reg.books reg.nextID ⟨reg.nextID, b.title, b.author⟩,
       wrapInt (reg.nextID + 1)⟩).1 = _
  simp [GetBook, hA, mapLookup_mapInsert]

theorem create_then_get_witness :
    (GetBook "1" (CreateBook (some ⟨42, "T", "A"⟩) Registry.init).2).1 =
      ⟨200, Body.jsonBook ⟨1, "T", "A"⟩⟩ :=
  (create_then_get Registry.init ⟨42, "T", "A"⟩ "1" (by decide)).2

/-- C7: Delete on a present id answers 204 with an empty body and removes the
record, so that a subsequent Get answers 404; Delete on an absent id answers
404 and leaves the registry unchanged. -/
theorem delete_then_get :
    ∀ (reg : Registry) (idStr : String) (id : Int),
      Atoi idStr = some id →
      (∀ b0 : Book, mapLookup reg.books id = some b0 →
          DeleteBook idStr reg =
            (⟨204, Body.empty⟩, ⟨mapDelete reg.books id, reg.nextID⟩)
          ∧ (GetBook idStr (DeleteBook idStr reg).2).1 =
              ⟨404, Body.errText "Book not found"⟩)
      ∧ (mapLookup reg.books id = none →
          DeleteBook idStr reg = (⟨404, Body.errText "Book not found"⟩, reg)) := by
  intro reg idStr id hA
  constructor
  · intro b0 hL
    have hD : DeleteBook idStr reg =
        (⟨204, Body.empty⟩, ⟨mapDelete reg.books id, reg.nextID⟩) := by
      simp [DeleteBook, hA, hL]
    refine ⟨hD, ?_⟩
    rw [hD]
    simp [GetBook, hA, mapLookup_mapDelete]
  · intro hL
    simp [DeleteBook, hA, hL]

theorem delete_then_get_witness :
    DeleteBook "1" (⟨[(1, ⟨1, "T", "A"⟩)], 2⟩ : Registry) =
        (⟨204, Body.empty⟩, (⟨[], 2⟩ : Registry))
    ∧ (GetBook "1" (DeleteBook "1" (⟨[(1, ⟨1, "T", "A"⟩)], 2⟩ : Registry)).2).1 =
        ⟨404, Body.errText "Book not found"⟩ :=
  (delete_then_get ⟨[(1, ⟨1, "T", "A"⟩)], 2⟩ "1" 1 (by decide)).1
    ⟨1, "T", "A"⟩ (by decide)

/-- C8: in every state reachable from the initial registry, each stored book
has its id field equal to the map key it is stored under. -/
theorem stored_id_eq_key :
    ∀ ops : List Op, ∀ p ∈ (runOps Registry.init ops).books, p.2.id = p.1 :=
  fun ops => WF_runOps ops Registry.init WF_init

theorem stored_id_eq_key_witness :
    ((1 : Int), (⟨1, "T", "A"⟩ : Book)) ∈
        (runOps Registry.init [Op.create (some ⟨7, "T", "A"⟩)]).books
    ∧ ((⟨1, "T", "A"⟩ : Book)).id = 1 :=
  ⟨by decide,
   stored_id_eq_key [Op.create (some ⟨7, "T", "A"⟩)] (1, ⟨1, "T", "A"⟩) (by decide)⟩

/-- C9 counterexample: the claim's "the next-id counter never decreases"
fails once the 64-bit counter overflows: running a single Create on the
registry whose counter holds `2^63 - 1` wraps the counter to `-2^63`,
strictly below its previous value. -/
theorem counter_wrap_decreases :
    (runOps (⟨[], 2 ^ 63 - 1⟩ : Registry) [Op.create (some ⟨0, "T", "A"⟩)]).nextID <
      (⟨[], 2 ^ 63 - 1⟩ : Registry).nextID := by decide

/-- C9 (amended): as long as the 64-bit counter cannot overflow during the
sequence (its value plus the number of operations stays below `2^63`), the
counter never decreases and the ids handed out by Create are pairwise
distinct, deletions notwithstanding; Delete never modifies the counter, and a
Create that does not hit the overflow boundary increments it by exactly
one. -/
theorem nextID_monotone_never_reused :
    (∀ (reg : Registry) (ops : List Op),
        -(2 ^ 63) ≤ reg.nextID → reg.nextID + (ops.length : Int) < 2 ^ 63 →
          reg.nextID ≤ (runOps reg ops).nextID ∧ (createdIds reg ops).Nodup)
    ∧ (∀ (reg : Registry) (idStr : String),
        ((DeleteBook idStr reg).2).nextID = reg.nextID)
    ∧ (∀ (reg : Registry) (b : Book),
        -(2 ^ 63) ≤ reg.nextID → reg.nextID + 1 < 2 ^ 63 →
          ((CreateBook (some b) reg).2).nextID = reg.nextID + 1) :=
  ⟨fun reg ops h1 h2 =>
    ⟨runOps_nextID_mono ops reg h1 h2, createdIds_nodup ops reg h1 h2⟩,
   fun reg idStr => DeleteBook_nextID idStr reg,
   fun reg b h1 h2 => by
    show wrapInt (reg.nextID + 1) = reg.nextID + 1
    exact wrapInt_eq _ (by omega) h2⟩

theorem nextID_monotone_never_reused_witness :
    (Registry.init.nextID ≤
        (runOps Registry.init [Op.create (some ⟨9, "T", "A"⟩)]).nextID
      ∧ (createdIds Registry.init [Op.create (some ⟨9, "T", "A"⟩)]).Nodup)
    ∧ ((CreateBook (some ⟨9, "T", "A"⟩) Registry.init).2).nextID =
        Registry.init.nextID + 1 :=
  ⟨nextID_monotone_never_reused.1 Registry.init [Op.create (some ⟨9, "T", "A"⟩)]
      (by decide) (by decide),
   nextID_monotone_never_reused.2.2 Registry.init ⟨9, "T", "A"⟩
      (by decide) (by decide)⟩

/-- C10: Update parses the id first and decodes the body before consulting
the map, so a parseable id that is absent from the registry together with an
undecodable body yields 400 (MalformedInput), not 404, and the registry is
unchanged. -/
theorem update_decodes_before_existence :
    ∀ (reg : Registry) (idStr : String) (id : Int),
      Atoi idStr = some id → mapLookup reg.books id = none →
      UpdateBook idStr none reg = (⟨400, Body.errText "Invalid input"⟩, reg) := by
  intro reg idStr id hA hL
  simp [UpdateBook, hA]

theorem update_decodes_before_existence_witness :
    Atoi "7" = some 7 ∧ mapLookup Registry.init.books 7 = none ∧
      UpdateBook "7" none Registry.init =
        (⟨400, Body.errText "Invalid input"⟩, Registry.init) :=
  ⟨by decide, by decide,
   update_decodes_before_existence Registry.init "7" 7 (by decide) (by decide)⟩
